import Mathlib

/-!
Verification of the health-check aggregation engine of python-dockerflow.

The embedding covers:
* the message model of `src/dockerflow/flask/checks/messages.py`
  (`CheckMessage`, the five leveled subclasses, `level_to_text`);
* the check execution engine of `src/dockerflow/checks/registry.py`
  (`_build_results_payload`, `run_checks`, `run_checks_async`);
* the registration helpers `register` and `register_partial`.

Python dictionaries are modelled as association lists with the exact
insert-overwrite behaviour of `d[k] = v` (replace in place when the key is
present, append otherwise) and first-match lookup.
-/

namespace Dockerflow

/-! ### Definitions translated from the source -/

/-- Model of a Python dict lookup `d[k]` / `d.get(k)`: first matching key. -/
def dictLookup {α β : Type} [DecidableEq α] : List (α × β) → α → Option β
  | [], _ => none
  | (k, v) :: rest, key => if k = key then some v else dictLookup rest key

/-- Model of a Python dict assignment `d[k] = v`: replace the value of an
existing key in place, otherwise append the new pair at the end. -/
def dictInsert {α β : Type} [DecidableEq α] : List (α × β) → α → β → List (α × β)
  | [], key, val => [(key, val)]
  | (k, v) :: rest, key, val =>
      if k = key then (key, val) :: rest else (k, v) :: dictInsert rest key val

/-- The Python class of a message: the base class `CheckMessage` or one of its
five subclasses `Debug`, `Info`, `Warning`, `Error`, `Critical`. -/
inductive MessageClass
  | base
  | debug
  | info
  | warning
  | error
  | critical
  deriving DecidableEq

/-- The relation `isSubclass sub sup` models `isinstance(x, sup)` for an `x` of class `sub`:
every message class derives from the base class, and the five leveled
subclasses are unrelated to each other. -/
def isSubclass (sub sup : MessageClass) : Bool :=
  match sup with
  | .base => true
  | _ => decide (sub = sup)

-- Severity levels from messages.py.
def DEBUG : Int := 10

def INFO : Int := 20

def WARNING : Int := 30

def ERROR : Int := 40

def CRITICAL : Int := 50

/-- A `CheckMessage` instance whose `level` attribute is set (as produced by
the five public subclasses, or by the base constructor with a truthy level):
fields `msg`, `level`, `hint`, `obj`, `id` of `CheckMessage.__init__`, plus
the Python class of the object. -/
structure CheckMessage where
  msg : String
  level : Int
  hint : Option String
  obj : Option String
  id : Option String
  cls : MessageClass
  deriving DecidableEq

/-- The body of `CheckMessage.__init__` for a subclass with class-attribute
default level `defaultLevel`: `if level: self.level = int(level)` keeps the
class default when the `level` argument is `None` or `0` (falsy). -/
def mkMessage (cls : MessageClass) (defaultLevel : Int) (msg : String)
    (level : Option Int) (hint obj id : Option String) : CheckMessage :=
  ⟨msg,
   match level with
   | some l => if l = 0 then defaultLevel else l
   | none => defaultLevel,
   hint, obj, id, cls⟩

/-- The `Debug` message class (default level 10). -/
def Debug (msg : String) (level : Option Int) (hint obj id : Option String) : CheckMessage :=
  mkMessage .debug DEBUG msg level hint obj id

/-- The `Info` message class (default level 20). -/
def Info (msg : String) (level : Option Int) (hint obj id : Option String) : CheckMessage :=
  mkMessage .info INFO msg level hint obj id

/-- The `Warning` message class (default level 30). -/
def Warning (msg : String) (level : Option Int) (hint obj id : Option String) : CheckMessage :=
  mkMessage .warning WARNING msg level hint obj id

/-- The `Error` message class (default level 40). -/
def Error (msg : String) (level : Option Int) (hint obj id : Option String) : CheckMessage :=
  mkMessage .error ERROR msg level hint obj id

/-- The `Critical` message class (default level 50). -/
def Critical (msg : String) (level : Option Int) (hint obj id : Option String) : CheckMessage :=
  mkMessage .critical CRITICAL msg level hint obj id

/-- Python `CheckMessage.__eq__`: `isinstance(other, self.__class__)` and all of
`level`, `msg`, `hint`, `obj`, `id` equal. -/
def msgEq (m1 m2 : CheckMessage) : Bool :=
  isSubclass m2.cls m1.cls &&
    (decide (m1.level = m2.level) && (decide (m1.msg = m2.msg) &&
      (decide (m1.hint = m2.hint) && (decide (m1.obj = m2.obj) &&
        decide (m1.id = m2.id)))))

/-- The `STATUSES` mapping of messages.py. -/
def STATUSES : List (Int × String) :=
  [(0, "ok"), (DEBUG, "debug"), (INFO, "info"), (WARNING, "warning"),
   (ERROR, "error"), (CRITICAL, "critical")]

/-- The function `level_to_text(level)`: `STATUSES.get(level, 'unknown')`. -/
def level_to_text (level : Int) : String :=
  (dictLookup STATUSES level).getD "unknown"

/-- The per-check detail dict
`{"status": ..., "level": ..., "messages": {...}}` built by
`_build_results_payload`. -/
structure Detail where
  status : String
  level : Int
  messages : List (Option String × String)
  deriving DecidableEq

/-- The `ChecksResults` dataclass of registry.py. -/
structure ChecksResults where
  details : List (String × Detail)
  statuses : List (String × String)
  level : Int
  deriving DecidableEq

/-- Membership test `e.id in silenced_check_ids` for an id that may be `None` (`None` is never
equal to any string in the list). -/
def idMem : Option String → List String → Bool
  | none, _ => false
  | some i, silenced => silenced.contains i

/-- The list comprehension `[e for e in errors if e.id not in silenced_check_ids]`. -/
def filterSilenced (silenced : List String) (errors : List CheckMessage) :
    List CheckMessage :=
  errors.filter (fun e => !(idMem e.id silenced))

/-- The expression `max([0] + [e.level for e in errors])`. -/
def levelsMax (errors : List CheckMessage) : Int :=
  errors.foldl (fun acc e => max acc e.level) 0

/-- The per-check level computed by `_build_results_payload`: the maximum
level of the non-silenced messages, at least 0. -/
def checkLevel (silenced : List String) (errors : List CheckMessage) : Int :=
  levelsMax (filterSilenced silenced errors)

/-- The dict comprehension mapping `e.id` to `e.msg` for `e in errors`. -/
def messagesDict (errors : List CheckMessage) : List (Option String × String) :=
  errors.foldl (fun d e => dictInsert d e.id e.msg) []

/-- The `detail` dict built by `_build_results_payload` for one check. -/
def checkDetail (silenced : List String) (errors : List CheckMessage) : Detail :=
  ⟨level_to_text (checkLevel silenced errors), checkLevel silenced errors,
   messagesDict (filterSilenced silenced errors)⟩

/-- One iteration of the `for name, errors in checks_results` loop of
`_build_results_payload`, threading the `details`, `statuses` and `max_level`
accumulators (packed as a `ChecksResults`). -/
def payloadStep (silenced : List String) (acc : ChecksResults)
    (nr : String × List CheckMessage) : ChecksResults :=
  let errors := filterSilenced silenced nr.2
  let level := levelsMax errors
  ⟨if level > 0 then dictInsert acc.details nr.1 (checkDetail silenced nr.2)
    else acc.details,
   dictInsert acc.statuses nr.1 (level_to_text level),
   max acc.level level⟩

/-- The function `_build_results_payload(checks_results, silenced_check_ids)`. -/
def _build_results_payload (checksResults : List (String × List CheckMessage))
    (silenced : List String) : ChecksResults :=
  checksResults.foldl (payloadStep silenced) ⟨[], [], 0⟩

/-- A registered check callback: zero-argument, returning a message list. -/
abbrev CheckFn := Unit → List CheckMessage

/-- The function `run_checks(checks, silenced_check_ids)`:
`results = [(name, check()) for name, check in checks]` then
`_build_results_payload(results, silenced_check_ids)`. `silenced = []`
models the `None` default. -/
def run_checks (checks : List (String × CheckFn)) (silenced : List String) :
    ChecksResults :=
  _build_results_payload (checks.map (fun nc => (nc.1, nc.2 ()))) silenced

/-- The helper `_run_check_async(check)` for a purely synchronous check: the check
function is dispatched to the executor and its result paired with the name. -/
def _run_check_async (check : String × CheckFn) : String × List CheckMessage :=
  (check.1, check.2 ())

/-- The function `run_checks_async(checks, silenced_check_ids)` restricted to purely
synchronous checks: `asyncio.gather` preserves the order of the tasks, so the
collected results are the checks mapped through `_run_check_async` in order,
then aggregated by `_build_results_payload`. -/
def run_checks_async (checks : List (String × CheckFn)) (silenced : List String) :
    ChecksResults :=
  _build_results_payload (checks.map _run_check_async) silenced

def detailLevels (d : List (String × Detail)) : List Int :=
  d.map (fun p => p.2.level)

def intListMax (l : List Int) : Int :=
  l.foldl (fun m x => max m x) 0

/-- A Python function value as the registry sees it: its dunder name
(`__name__`) and its behaviour on a list of positional arguments. -/
structure PyFunc (V R : Type) where
  fname : String
  fn : List V → R

/-- Model of `functools.wraps(src)(tgt)`: copy the name of `src` onto the
callable `tgt`. -/
def wraps {V R : Type} (src tgt : PyFunc V R) : PyFunc V R :=
  ⟨src.fname, tgt.fn⟩

/-- Model of `functools.partial(f, *args)`: a callable without a name of its
own that prepends the bound arguments to any further ones. -/
def partialApply {V R : Type} (f : PyFunc V R) (args : List V) : PyFunc V R :=
  ⟨"", fun more => f.fn (args ++ more)⟩

/-- The module-level registry `_REGISTERED_CHECKS`, passed explicitly. -/
abbrev Registry (V R : Type) := List (String × PyFunc V R)

/-- Model of `register(func, name)` for a synchronous callable: the name
defaults to `func.__name__`; the stored `decorated_function` logs (a side
effect outside the model) and delegates to `func`, and `functools.wraps`
copies `func.__name__` onto it. -/
def register {V R : Type} (reg : Registry V R) (func : PyFunc V R)
    (name : Option String) : Registry V R :=
  let n := name.getD func.fname
  dictInsert reg n (wraps func ⟨"decorated_function", fun args => func.fn args⟩)

/-- Model of `register_partial(func, *args, name)`: the name defaults to
`func.__name__`; the bound arguments are attached with `functools.partial`,
`functools.wraps` copies `func.__name__` onto the partial, and the result is
registered under the name. -/
def register_partial {V R : Type} (reg : Registry V R) (func : PyFunc V R)
    (args : List V) (name : Option String) : Registry V R :=
  let n := name.getD func.fname
  register reg (wraps func ( partialApply func args)) (some n)

/-- A check returning one error with id `"x.E1"`. -/
def silCheckA : CheckFn := fun _ => [Error "boom" none none none (some "x.E1")]

/-- A check returning one warning with id `"y.W1"`. -/
def silCheckB : CheckFn := fun _ => [Warning "slow" none none none (some "y.W1")]

/-- An `Error` instance, all five attributes equal to those of `exBaseMsg`. -/
def exErrorMsg : CheckMessage := ⟨"boom", 40, none, none, none, .error⟩

/-- A base-class `CheckMessage("boom", level=40)` instance. -/
def exBaseMsg : CheckMessage := ⟨"boom", 40, none, none, none, .base⟩

/-- A failing duplicate check. -/
def dupFail : CheckFn := fun _ => [Error "boom" none none none (some "x.E1")]

/-- A passing duplicate check. -/
def dupPass : CheckFn := fun _ => []

/-- A message constructed as `Info("odd", level=25)`. -/
def oddLevelMsg : CheckMessage := Info "odd" (some 25) none none (some "z.I1")

/-- A check producing an error and a warning under distinct ids. -/
def twoIdCheck : CheckFn := fun _ =>
  [Error "down" none none none (some "x.E1"),
   Warning "slow" none none none (some "y.W1")]

/-! ### Helper lemmas -/

theorem dictLookup_insert_self {α β : Type} [DecidableEq α]
    (d : List (α × β)) (k : α) (v : β) :
    dictLookup (dictInsert d k v) k = some v := by
  induction d with
  | nil => simp [dictInsert, dictLookup]
  | cons hd tl ih =>
    obtain ⟨k', v'⟩ := hd
    by_cases h : k' = k
    · simp [dictInsert, h, dictLookup]
    · simp [dictInsert, h, dictLookup, ih]

theorem dictLookup_insert_ne {α β : Type} [DecidableEq α]
    (d : List (α × β)) (kn ko : α) (v : β) (h : kn ≠ ko) :
    dictLookup (dictInsert d kn v) ko = dictLookup d ko := by
  induction d with
  | nil => simp [dictInsert, dictLookup, h]
  | cons hd tl ih =>
    obtain ⟨k', v'⟩ := hd
    by_cases h' : k' = kn
    · subst h'
      simp [dictInsert, dictLookup, h]
    · by_cases h'' : k' = ko
      · subst h''
        simp [dictInsert, dictLookup, h']
      · simp [dictInsert, dictLookup, h', h'', ih]

theorem dictInsert_fresh {α β : Type} [DecidableEq α]
    (d : List (α × β)) (k : α) (v : β) (h : dictLookup d k = none) :
    dictInsert d k v = d ++ [(k, v)] := by
  induction d with
  | nil => simp [dictInsert]
  | cons hd tl ih =>
    obtain ⟨k', v'⟩ := hd
    by_cases h' : k' = k
    · simp [dictLookup, h'] at h
    · simp [dictLookup, h'] at h
      simp [dictInsert, h', ih h]

theorem foldl_max_init_le {α : Type} (f : α → Int) (l : List α) (a : Int) :
    a ≤ l.foldl (fun m x => max m (f x)) a := by
  induction l generalizing a with
  | nil => exact le_refl a
  | cons hd tl ih => exact le_trans (le_max_left a (f hd)) (ih (max a (f hd)))

theorem foldl_max_le {α : Type} (f : α → Int) (l : List α) (c : Int)
    (h : ∀ x ∈ l, f x ≤ c) (a : Int) (ha : a ≤ c) :
    l.foldl (fun m x => max m (f x)) a ≤ c := by
  induction l generalizing a with
  | nil => exact ha
  | cons hd tl ih =>
    exact ih (fun x hx => h x (List.mem_cons_of_mem hd hx))
      (max a (f hd)) (max_le ha (h hd (List.mem_cons_self hd tl)))

theorem le_foldl_max_of_mem {α : Type} (f : α → Int) (l : List α) (a : Int)
    (x : α) (hx : x ∈ l) :
    f x ≤ l.foldl (fun m y => max m (f y)) a := by
  induction l generalizing a with
  | nil => cases hx
  | cons hd tl ih =>
    rcases List.mem_cons.mp hx with h | h
    · subst h
      exact le_trans (le_max_right a (f x)) (foldl_max_init_le f tl (max a (f x)))
    · exact ih (max a (f hd)) h

theorem foldl_max_mono {α : Type} (f g : α → Int) (l : List α)
    (h : ∀ x ∈ l, f x ≤ g x) (a b : Int) (hab : a ≤ b) :
    l.foldl (fun m x => max m (f x)) a ≤ l.foldl (fun m x => max m (g x)) b := by
  induction l generalizing a b with
  | nil => exact hab
  | cons hd tl ih =>
    exact ih (fun x hx => h x (List.mem_cons_of_mem hd hx))
      (max a (f hd)) (max b (g hd)) (max_le_max hab (h hd (List.mem_cons_self hd tl)))

theorem intListMax_nonneg (l : List Int) : 0 ≤ intListMax l := by
  unfold intListMax
  exact foldl_max_init_le (fun x => x) l 0

theorem levelsMax_nonneg (errors : List CheckMessage) : 0 ≤ levelsMax errors := by
  unfold levelsMax
  exact foldl_max_init_le (fun e => e.level) errors 0

theorem intListMax_append_single (xs : List Int) (y : Int) :
    intListMax (xs ++ [y]) = max (intListMax xs) y := by
  simp [intListMax, List.foldl_append]

theorem idMem_mono (id : Option String) (S T : List String)
    (hST : ∀ i ∈ S, i ∈ T) (h : idMem id S = true) : idMem id T = true := by
  cases id with
  | none => simp [idMem] at h
  | some i =>
    simp only [idMem] at h ⊢
    have hi : i ∈ S := by simpa using h
    simpa using hST i hi

theorem filterSilenced_nil (msgs : List CheckMessage) :
    filterSilenced [] msgs = msgs := by
  unfold filterSilenced
  apply List.filter_eq_self.mpr
  intro m _
  cases hm : m.id with
  | none => simp [idMem]
  | some i => simp [idMem, hm]

theorem filterSilenced_of_none_silenced (silenced : List String)
    (msgs : List CheckMessage) (h : ∀ m ∈ msgs, idMem m.id silenced = false) :
    filterSilenced silenced msgs = msgs := by
  unfold filterSilenced
  apply List.filter_eq_self.mpr
  intro m hm
  simp [h m hm]

theorem filterSilenced_of_all_silenced (silenced : List String)
    (msgs : List CheckMessage) (h : ∀ m ∈ msgs, idMem m.id silenced = true) :
    filterSilenced silenced msgs = [] := by
  unfold filterSilenced
  apply List.filter_eq_nil_iff.mpr
  intro m hm
  simp [h m hm]

theorem checkLevel_antitone (S T : List String) (hST : ∀ i ∈ S, i ∈ T)
    (msgs : List CheckMessage) :
    checkLevel T msgs ≤ checkLevel S msgs := by
  unfold checkLevel levelsMax
  refine foldl_max_le (fun e : CheckMessage => e.level) _ _ ?_ 0 (levelsMax_nonneg (filterSilenced S msgs))
  intro e he
  have he' := List.mem_filter.mp he
  have hkeep : idMem e.id S = false := by
    rcases Bool.eq_false_or_eq_true (idMem e.id S) with ht | hf
    · exfalso
      have := idMem_mono e.id S T hST ht
      simp [this] at he'
    · exact hf
  have hmemS : e ∈ filterSilenced S msgs :=
    List.mem_filter.mpr ⟨he'.1, by simp [hkeep]⟩
  exact le_foldl_max_of_mem (fun e : CheckMessage => e.level) (filterSilenced S msgs) 0 e hmemS

theorem foldl_payload_frame (silenced : List String)
    (l : List (String × List CheckMessage)) (acc : ChecksResults) (name : String)
    (h : ∀ nr ∈ l, nr.1 ≠ name) :
    dictLookup (l.foldl (payloadStep silenced) acc).statuses name
        = dictLookup acc.statuses name ∧
      dictLookup (l.foldl (payloadStep silenced) acc).details name
        = dictLookup acc.details name := by
  induction l generalizing acc with
  | nil => exact ⟨rfl, rfl⟩
  | cons hd tl ih =>
    have hhd : hd.1 ≠ name := h hd (List.mem_cons_self hd tl)
    have htl := ih (payloadStep silenced acc hd)
      (fun nr hm => h nr (List.mem_cons_of_mem hd hm))
    rw [List.foldl_cons]
    refine ⟨?_, ?_⟩
    · rw [htl.1]
      simp only [payloadStep]
      exact dictLookup_insert_ne acc.statuses hd.1 name _ hhd
    · rw [htl.2]
      simp only [payloadStep]
      by_cases hl : levelsMax (filterSilenced silenced hd.2) > 0
      · simp only [hl, if_pos hl]
        exact dictLookup_insert_ne acc.details hd.1 name _ hhd
      · simp only [if_neg hl]

theorem run_lookup (silenced : List String)
    (l : List (String × List CheckMessage)) (acc : ChecksResults)
    (name : String) (msgs : List CheckMessage)
    (hmem : (name, msgs) ∈ l)
    (hnodup : (l.map Prod.fst).Nodup)
    (hacc : dictLookup acc.details name = none) :
    dictLookup (l.foldl (payloadStep silenced) acc).statuses name
        = some (level_to_text (checkLevel silenced msgs)) ∧
      dictLookup (l.foldl (payloadStep silenced) acc).details name
        = (if checkLevel silenced msgs > 0 then some (checkDetail silenced msgs)
            else none) := by
  induction l generalizing acc with
  | nil => cases hmem
  | cons hd tl ih =>
    have hnotin : hd.1 ∉ tl.map Prod.fst := (List.nodup_cons.mp hnodup).1
    have htlnodup : (tl.map Prod.fst).Nodup := (List.nodup_cons.mp hnodup).2
    rcases List.mem_cons.mp hmem with heq | htl
    · have hfst : hd.1 = name := by rw [← heq]
      have hne : ∀ nr ∈ tl, nr.1 ≠ name := by
        intro nr hm hc
        exact hnotin (hfst ▸ hc ▸ List.mem_map_of_mem Prod.fst hm)
      have frame := foldl_payload_frame silenced tl (payloadStep silenced acc hd) name hne
      rw [List.foldl_cons]
      have hhd2 : hd.2 = msgs := by rw [← heq]
      constructor
      · rw [frame.1]
        simp only [payloadStep, hfst, hhd2]
        exact dictLookup_insert_self acc.statuses name _
      · rw [frame.2]
        simp only [payloadStep, hfst, hhd2]
        by_cases hl : checkLevel silenced msgs > 0
        · have : levelsMax (filterSilenced silenced msgs) > 0 := hl
          rw [if_pos this, if_pos hl]
          exact dictLookup_insert_self acc.details name _
        · have : ¬ levelsMax (filterSilenced silenced msgs) > 0 := hl
          rw [if_neg this, if_neg hl]
          exact hacc
    · have hne : hd.1 ≠ name := by
        intro hc
        exact hnotin (hc ▸ List.mem_map_of_mem Prod.fst htl)
      rw [List.foldl_cons]
      refine ih (payloadStep silenced acc hd) htl htlnodup ?_
      simp only [payloadStep]
      by_cases hl : levelsMax (filterSilenced silenced hd.2) > 0
      · rw [if_pos hl]
        rw [dictLookup_insert_ne acc.details hd.1 name _ hne]
        exact hacc
      · rw [if_neg hl]
        exact hacc

theorem run_names (checks : List (String × CheckFn)) :
    ((checks.map (fun nc => (nc.1, nc.2 ()))).map Prod.fst) = checks.map Prod.fst := by
  rw [List.map_map]
  rfl

theorem run_checks_lookup (checks : List (String × CheckFn)) (silenced : List String)
    (name : String) (f : CheckFn)
    (hmem : (name, f) ∈ checks) (hnodup : (checks.map Prod.fst).Nodup) :
    dictLookup (run_checks checks silenced).statuses name
        = some (level_to_text (checkLevel silenced (f ()))) ∧
      dictLookup (run_checks checks silenced).details name
        = (if checkLevel silenced (f ()) > 0 then some (checkDetail silenced (f ()))
            else none) := by
  refine run_lookup silenced _ _ name (f ()) ?_ ?_ rfl
  · exact List.mem_map_of_mem _ hmem
  · rw [run_names]
    exact hnodup

theorem foldl_level_invariant (silenced : List String)
    (l : List (String × List CheckMessage)) (acc : ChecksResults)
    (hnodup : (l.map Prod.fst).Nodup)
    (hfresh : ∀ nr ∈ l, dictLookup acc.details nr.1 = none)
    (hinv : acc.level = intListMax (detailLevels acc.details)) :
    (l.foldl (payloadStep silenced) acc).level
      = intListMax (detailLevels (l.foldl (payloadStep silenced) acc).details) := by
  induction l generalizing acc with
  | nil => exact hinv
  | cons hd tl ih =>
    have hnotin : hd.1 ∉ tl.map Prod.fst := (List.nodup_cons.mp hnodup).1
    rw [List.foldl_cons]
    refine ih (payloadStep silenced acc hd) (List.nodup_cons.mp hnodup).2 ?_ ?_
    · intro nr hm
      have hne : hd.1 ≠ nr.1 := by
        intro hc
        exact hnotin (hc ▸ List.mem_map_of_mem Prod.fst hm)
      simp only [payloadStep]
      by_cases hl : levelsMax (filterSilenced silenced hd.2) > 0
      · rw [if_pos hl, dictLookup_insert_ne acc.details hd.1 nr.1 _ hne]
        exact hfresh nr (List.mem_cons_of_mem hd hm)
      · rw [if_neg hl]
        exact hfresh nr (List.mem_cons_of_mem hd hm)
    · simp only [payloadStep]
      by_cases hl : levelsMax (filterSilenced silenced hd.2) > 0
      · rw [if_pos hl,
          dictInsert_fresh acc.details hd.1 _ (hfresh hd (List.mem_cons_self hd tl))]
        show max acc.level (levelsMax (filterSilenced silenced hd.2))
          = intListMax (detailLevels (acc.details ++ [(hd.1, checkDetail silenced hd.2)]))
        rw [detailLevels, List.map_append, hinv]
        rw [show (List.map (fun p => p.2.level) [(hd.1, checkDetail silenced hd.2)])
            = [(checkDetail silenced hd.2).level] from rfl]
        rw [intListMax_append_single]
        rfl
      · rw [if_neg hl]
        show max acc.level (levelsMax (filterSilenced silenced hd.2))
          = intListMax (detailLevels acc.details)
        have hL0 : levelsMax (filterSilenced silenced hd.2) = 0 :=
          le_antisymm (not_lt.mp hl) (levelsMax_nonneg _)
        rw [hL0, hinv, max_eq_left (intListMax_nonneg _)]

theorem run_level_eq (checks : List (String × CheckFn)) (silenced : List String) :
    (run_checks checks silenced).level
      = (checks.map (fun nc => (nc.1, nc.2 ()))).foldl
          (fun m nr => max m (checkLevel silenced nr.2)) 0 := by
  show ((checks.map (fun nc => (nc.1, nc.2 ()))).foldl
      (payloadStep silenced) ⟨[], [], 0⟩).level = _
  generalize checks.map (fun nc => (nc.1, nc.2 ())) = l
  suffices h : ∀ (acc : ChecksResults),
      (l.foldl (payloadStep silenced) acc).level
        = l.foldl (fun m nr => max m (checkLevel silenced nr.2)) acc.level by
    exact h ⟨[], [], 0⟩
  induction l with
  | nil => intro acc; rfl
  | cons hd tl ih =>
    intro acc
    rw [List.foldl_cons, List.foldl_cons]
    exact ih (payloadStep silenced acc hd)

/-! ### Claim theorems -/

/-- C1: with pairwise-distinct check names, the overall `level` returned by
`run_checks` equals the maximum of the levels of the entries of `details`,
taken as `0` when `details` is empty (`intListMax` folds `max` over the
detail levels starting from `0`). -/
theorem run_checks_level_invariant (checks : List (String × CheckFn))
    (silenced : List String) (hnodup : (checks.map Prod.fst).Nodup) :
    (run_checks checks silenced).level
      = intListMax (detailLevels (run_checks checks silenced).details) := by
  unfold run_checks _build_results_payload
  refine foldl_level_invariant silenced _ ⟨[], [], 0⟩ ?_ ?_ rfl
  · rw [run_names]
    exact hnodup
  · intro nr _
    rfl

/-- Witness for C1 at a concrete three-check input with distinct names. -/
theorem run_checks_level_invariant_witness :
    (run_checks [("db", fun _ => [Error "down" none none none (some "db.E1")]),
        ("cache", fun _ => []),
        ("queue", fun _ => [Warning "slow" none none none (some "q.W1")])] []).level
      = intListMax (detailLevels
          (run_checks [("db", fun _ => [Error "down" none none none (some "db.E1")]),
            ("cache", fun _ => []),
            ("queue", fun _ => [Warning "slow" none none none (some "q.W1")])] []).details) :=
  run_checks_level_invariant _ [] (by decide)

/-- C2: one check named `"name"` returning `[Error("boom", id="x.E1")]` with
nothing silenced yields level 40, statuses mapping `"name"` to `"error"`, and
details mapping `"name"` to the detail with level 40, status `"error"` and
messages mapping `"x.E1"` to `"boom"`. -/
theorem run_checks_single_error :
    run_checks [("name", fun _ => [Error "boom" none none none (some "x.E1")])] []
      = ⟨[("name", ⟨"error", 40, [(some "x.E1", "boom")]⟩)],
         [("name", "error")], 40⟩ := by
  rfl

/-- C3: a message whose id is in `silenced_check_ids` is dropped before the
check's level is computed: a check all of whose messages are silenced reports
status `"ok"` and has no `details` entry, while a check none of whose message
ids are silenced gets exactly the `statuses` and `details` entries it would
get with no silencing at all (check names pairwise distinct). -/
theorem run_checks_silencing (checks : List (String × CheckFn))
    (silenced : List String) (name : String) (f : CheckFn)
    (hnodup : (checks.map Prod.fst).Nodup) (hmem : (name, f) ∈ checks) :
    ((∀ m ∈ f (), idMem m.id silenced = true) →
        dictLookup (run_checks checks silenced).statuses name = some "ok" ∧
        dictLookup (run_checks checks silenced).details name = none) ∧
      ((∀ m ∈ f (), idMem m.id silenced = false) →
        dictLookup (run_checks checks silenced).statuses name
            = dictLookup (run_checks checks []).statuses name ∧
          dictLookup (run_checks checks silenced).details name
            = dictLookup (run_checks checks []).details name) := by
  obtain ⟨hs, hd⟩ := run_checks_lookup checks silenced name f hmem hnodup
  obtain ⟨hs0, hd0⟩ := run_checks_lookup checks [] name f hmem hnodup
  constructor
  · intro hall
    have hfe : filterSilenced silenced (f ()) = [] :=
      filterSilenced_of_all_silenced silenced (f ()) hall
    have hcl : checkLevel silenced (f ()) = 0 := by
      rw [checkLevel, hfe]
      rfl
    refine ⟨?_, ?_⟩
    · rw [hs, hcl]
      rfl
    · rw [hd, hcl]
      simp
  · intro hnone
    have hfe : filterSilenced silenced (f ()) = f () :=
      filterSilenced_of_none_silenced silenced (f ()) hnone
    have hfe0 : filterSilenced [] (f ()) = f () := filterSilenced_nil (f ())
    have hcl : checkLevel silenced (f ()) = checkLevel [] (f ()) := by
      rw [checkLevel, checkLevel, hfe, hfe0]
    have hcd : checkDetail silenced (f ()) = checkDetail [] (f ()) := by
      unfold checkDetail
      rw [hcl, hfe, hfe0]
    exact ⟨by rw [hs, hs0, hcl], by rw [hd, hd0, hcl, hcd]⟩

/-- Witness for C3 at a concrete input: silencing the only message id of
check `"a"` makes it report `"ok"` with no details entry. -/
theorem run_checks_silencing_witness :
    dictLookup (run_checks [("a", silCheckA), ("b", silCheckB)] ["x.E1"]).statuses "a"
        = some "ok"
      ∧ dictLookup (run_checks [("a", silCheckA), ("b", silCheckB)] ["x.E1"]).details "a"
          = none :=
  (run_checks_silencing [("a", silCheckA), ("b", silCheckB)] ["x.E1"] "a" silCheckA
    (by decide) (List.mem_cons_self _ _)).1 (by decide)

/-- C4: for purely synchronous checks, `run_checks_async` and `run_checks`
return identical results on every input. -/
theorem run_checks_async_eq_run_checks (checks : List (String × CheckFn))
    (silenced : List String) :
    run_checks_async checks silenced = run_checks checks silenced := rfl

/-- C5: with pairwise-distinct names, every check name is a key of
`statuses`, a name is a key of `details` iff the check's maximum non-silenced
message level is greater than `0`, and in particular a check returning the
empty message list gets `statuses` entry `"ok"` and no `details` entry. -/
theorem run_checks_statuses_total_details_positive (checks : List (String × CheckFn))
    (silenced : List String) (name : String) (f : CheckFn)
    (hnodup : (checks.map Prod.fst).Nodup) (hmem : (name, f) ∈ checks) :
    (dictLookup (run_checks checks silenced).statuses name).isSome = true
      ∧ ((dictLookup (run_checks checks silenced).details name).isSome = true
          ↔ 0 < checkLevel silenced (f ()))
      ∧ (f () = [] →
          dictLookup (run_checks checks silenced).statuses name = some "ok"
            ∧ dictLookup (run_checks checks silenced).details name = none) := by
  obtain ⟨hs, hd⟩ := run_checks_lookup checks silenced name f hmem hnodup
  refine ⟨by rw [hs]; rfl, ?_, ?_⟩
  · rw [hd]
    by_cases h : checkLevel silenced (f ()) > 0
    · simp [h]
    · simp [h]
  · intro hempty
    have hcl : checkLevel silenced (f ()) = 0 := by
      rw [checkLevel, hempty]
      rfl
    exact ⟨by rw [hs, hcl]; rfl, by rw [hd, hcl]; simp⟩

/-- Witness for C5 at a concrete input: check `"b"` has a `statuses`
entry. -/
theorem run_checks_statuses_total_details_positive_witness :
    (dictLookup (run_checks [("a", silCheckA), ("b", silCheckB)] []).statuses "b").isSome
      = true :=
  (run_checks_statuses_total_details_positive [("a", silCheckA), ("b", silCheckB)] []
    "b" silCheckB (by decide)
    (List.mem_cons_of_mem _ (List.mem_cons_self _ _))).1

/-- C6 counterexample: the two messages agree on `level`, `msg`, `hint`,
`obj` and `id`, yet `exErrorMsg == exBaseMsg` is false, because `__eq__`
additionally requires `isinstance(other, self.__class__)`. -/
theorem msgEq_not_attribute_equality :
    msgEq exErrorMsg exBaseMsg = false
      ∧ exErrorMsg.level = exBaseMsg.level
      ∧ exErrorMsg.msg = exBaseMsg.msg
      ∧ exErrorMsg.hint = exBaseMsg.hint
      ∧ exErrorMsg.obj = exBaseMsg.obj
      ∧ exErrorMsg.id = exBaseMsg.id := by
  decide

/-- C6 amended: `m1 == m2` holds iff `m2` is an instance of `m1`'s class and
the five attributes are pairwise equal. -/
theorem msgEq_iff_isinstance_and_attributes (m1 m2 : CheckMessage) :
    msgEq m1 m2 = true ↔
      (isSubclass m2.cls m1.cls = true ∧ m1.level = m2.level ∧ m1.msg = m2.msg
        ∧ m1.hint = m2.hint ∧ m1.obj = m2.obj ∧ m1.id = m2.id) := by
  simp [msgEq, Bool.and_eq_true, decide_eq_true_eq]

/-- C7 counterexample: with the duplicate-name input
`[("a", dupFail), ("a", dupPass)]`, the later (passing) pair overwrites the
`statuses` entry but leaves the earlier pair's `details` entry in place,
whereas the later pair's outcome alone has no `details` entry. -/
theorem duplicate_name_details_persist :
    dictLookup (run_checks [("a", dupFail), ("a", dupPass)] []).statuses "a"
        = some "ok"
      ∧ dictLookup (run_checks [("a", dupFail), ("a", dupPass)] []).details "a"
          = some ⟨"error", 40, [(some "x.E1", "boom")]⟩
      ∧ dictLookup (run_checks [("a", dupPass)] []).details "a" = none := by
  decide

/-- C7 amended: with a duplicated check name, the later pair always
overwrites the `statuses` entry, but overwrites the `details` entry only when
its own level is positive; when the later level is `0` an earlier positive
pair's `details` entry persists. -/
theorem duplicate_name_overwrite (name : String) (f g : CheckFn)
    (silenced : List String) :
    dictLookup (run_checks [(name, f), (name, g)] silenced).statuses name
        = some (level_to_text (checkLevel silenced (g ())))
      ∧ dictLookup (run_checks [(name, f), (name, g)] silenced).details name
          = (if 0 < checkLevel silenced (g ()) then some (checkDetail silenced (g ()))
              else if 0 < checkLevel silenced (f ()) then some (checkDetail silenced (f ()))
              else none) := by
  have hfold : run_checks [(name, f), (name, g)] silenced
      = payloadStep silenced
          (payloadStep silenced ⟨[], [], 0⟩ (name, f ())) (name, g ()) := rfl
  rw [hfold]
  have hlf : levelsMax (filterSilenced silenced (f ()))
      = checkLevel silenced (f ()) := rfl
  have hlg : levelsMax (filterSilenced silenced (g ()))
      = checkLevel silenced (g ()) := rfl
  constructor
  · simp only [payloadStep, hlg]
    exact dictLookup_insert_self _ name _
  · simp only [payloadStep, hlf, hlg]
    by_cases hg : checkLevel silenced (g ()) > 0
    · rw [if_pos hg, if_pos hg]
      exact dictLookup_insert_self _ name _
    · rw [if_neg hg, if_neg hg]
      by_cases hf : checkLevel silenced (f ()) > 0
      · rw [if_pos hf, if_pos hf]
        exact dictLookup_insert_self _ name _
      · rw [if_neg hf, if_neg hf]
        rfl

/-- C8: `level_to_text` is total, mapping `0/10/20/30/40/50` to
`ok/debug/info/warning/error/critical` and every other integer to
`"unknown"`; and every non-silenced message contributes its numeric level to
the engine's max-level computation (its level bounds the check level from
below), whether or not the level is one of the five defined severities. -/
theorem level_to_text_total_and_contribution :
    level_to_text 0 = "ok" ∧ level_to_text 10 = "debug" ∧ level_to_text 20 = "info"
      ∧ level_to_text 30 = "warning" ∧ level_to_text 40 = "error"
      ∧ level_to_text 50 = "critical"
      ∧ (∀ l : Int, l ≠ 0 → l ≠ 10 → l ≠ 20 → l ≠ 30 → l ≠ 40 → l ≠ 50 →
          level_to_text l = "unknown")
      ∧ (∀ (silenced : List String) (msgs : List CheckMessage) (m : CheckMessage),
          m ∈ msgs → idMem m.id silenced = false →
          m.level ≤ checkLevel silenced msgs) := by
  refine ⟨rfl, rfl, rfl, rfl, rfl, rfl, ?_, ?_⟩
  · intro l h0 h10 h20 h30 h40 h50
    have hnone : dictLookup STATUSES l = none := by
      simp only [STATUSES, DEBUG, INFO, WARNING, ERROR, CRITICAL, dictLookup]
      rw [if_neg (fun h => h0 h.symm), if_neg (fun h => h10 h.symm),
        if_neg (fun h => h20 h.symm), if_neg (fun h => h30 h.symm),
        if_neg (fun h => h40 h.symm), if_neg (fun h => h50 h.symm)]
    rw [level_to_text, hnone]
    rfl
  · intro silenced msgs m hm hns
    have hmem : m ∈ filterSilenced silenced msgs :=
      List.mem_filter.mpr ⟨hm, by simp [hns]⟩
    unfold checkLevel levelsMax
    exact le_foldl_max_of_mem (fun e : CheckMessage => e.level) _ 0 m hmem

/-- Witness for C8 at the concrete level 25 and the concrete message
`Info("odd", level=25)`: the text is `"unknown"` and the value 25 still
reaches the max computation. -/
theorem level_to_text_total_and_contribution_witness :
    level_to_text 25 = "unknown" ∧ (25 : Int) ≤ checkLevel [] [oddLevelMsg] := by
  constructor
  · exact level_to_text_total_and_contribution.2.2.2.2.2.2.1 25 (by decide)
      (by decide) (by decide) (by decide) (by decide) (by decide)
  · have h := level_to_text_total_and_contribution.2.2.2.2.2.2.2 []
      [oddLevelMsg] oddLevelMsg (List.mem_cons_self _ _) (by decide)
    have hl : oddLevelMsg.level = 25 := by decide
    rw [hl] at h
    exact h

/-- C9: after `register_partial(fn, *bound_args, name=name)` the registry
maps `name` (defaulting to `fn.__name__` when `name` is `None`) to a
zero-argument callable whose invocation returns the value of
`fn(*bound_args)`. -/
theorem register_partial_binds_arguments {V R : Type} (reg : Registry V R)
    (func : PyFunc V R) (args : List V) (name : Option String) :
    ∃ p : PyFunc V R,
      dictLookup ( register_partial reg func args name) (name.getD func.fname)
          = some p
        ∧ p.fn [] = func.fn args := by
  refine ⟨_, dictLookup_insert_self reg (name.getD func.fname) _, ?_⟩
  show func.fn (args ++ []) = func.fn args
  rw [List.append_nil]

/-- C10: silencing is monotone. If `S` is a subset of `T` then the overall
level of `run_checks` under `T` is at most the overall level under `S`, and
each individual check's reported level under `T` is at most its level under
`S`. -/
theorem run_checks_silencing_monotone (checks : List (String × CheckFn))
    (S T : List String) (hST : ∀ i ∈ S, i ∈ T) :
    (run_checks checks T).level ≤ (run_checks checks S).level
      ∧ ∀ nc ∈ checks, checkLevel T (nc.2 ()) ≤ checkLevel S (nc.2 ()) := by
  constructor
  · rw [run_level_eq checks T, run_level_eq checks S]
    refine foldl_max_mono
      (fun nr : String × List CheckMessage => checkLevel T nr.2)
      (fun nr : String × List CheckMessage => checkLevel S nr.2) _ ?_ 0 0 (le_refl 0)
    intro nr _
    exact checkLevel_antitone S T hST nr.2
  · intro nc _
    exact checkLevel_antitone S T hST (nc.2 ())

/-- Witness for C10 at the concrete silenced sets `["x.E1"]` and
`["x.E1", "y.W1"]`. -/
theorem run_checks_silencing_monotone_witness :
    (run_checks [("a", twoIdCheck)] ["x.E1", "y.W1"]).level
      ≤ (run_checks [("a", twoIdCheck)] ["x.E1"]).level :=
  (run_checks_silencing_monotone [("a", twoIdCheck)] ["x.E1"] ["x.E1", "y.W1"]
    (by intro i hi; simp only [List.mem_singleton] at hi; simp [hi])).1

end Dockerflow
